import Mathlib

/-!
Verification development for the automated grading pipeline
(`tools.py`, `prompts.py`, `langchain_integration.py`, `main_agent.py`).

The Python sources are shallowly embedded: strings are lists of characters,
filesystem and subprocess interactions are abstracted into explicit
environment records, and every pure computation (transcript parsing,
fixture classification, JSON recovery, score arithmetic) is translated
directly from the source.  Side effects that no claim depends on
(logging, saving reports to disk, staging-directory copies) are omitted
and noted in the corresponding doc comments.
-/

/-- Python strings are modelled as lists of characters. -/
abbrev Str := List Char

/-- Whitespace characters recognised by Python's `str.strip`, `str.split`
and the `\s` regex class (ASCII fragment). -/
def pySpace (c : Char) : Bool :=
  c = ' ' || c = '\t' || c = '\n' || c = '\r' || c = '\x0b' || c = '\x0c'

/-- ASCII alphanumeric test, modelling the regex class `[a-zA-Z0-9]`. -/
def asciiAlnum (c : Char) : Bool :=
  c.isDigit || (97 ≤ c.toNat && c.toNat ≤ 122) || (65 ≤ c.toNat && c.toNat ≤ 90)

/-- Does `hay` start with `pat`?  Models Python `str.startswith`. -/
def startsWithStr : Str → Str → Bool
  | [], _ => true
  | _ :: _, [] => false
  | p :: ps, h :: hs => p = h && startsWithStr ps hs

/-- Does `s` end with `suf`?  Models Python `str.endswith`. -/
def endsWithStr (s suf : Str) : Bool :=
  startsWithStr suf.reverse s.reverse

/-- Substring containment, modelling Python's `needle in hay` on strings. -/
def containsSub (needle : Str) : Str → Bool
  | [] => startsWithStr needle []
  | h :: t => startsWithStr needle (h :: t) || containsSub needle t

/-- Strip characters satisfying `p` from both ends,
modelling Python `str.strip` with a character class. -/
def pyStripP (p : Char → Bool) (s : Str) : Str :=
  ((s.dropWhile p).reverse.dropWhile p).reverse

/-- Python `str.strip()` (no arguments): trim whitespace from both ends. -/
def pyStrip (s : Str) : Str := pyStripP pySpace s

/-- Python `str.split()` with no separator: split on whitespace runs,
discarding empty pieces.  Fuel-based recursion on the input length. -/
def pySplitWsGo : ℕ → Str → List Str
  | 0, _ => []
  | f + 1, s =>
    let t := s.dropWhile pySpace
    match t with
    | [] => []
    | c :: rest =>
      let tok := c :: rest.takeWhile (fun d => !pySpace d)
      tok :: pySplitWsGo f (rest.dropWhile (fun d => !pySpace d))

/-- Python `str.split()` with no separator. -/
def pySplitWs (s : Str) : List Str := pySplitWsGo (s.length + 1) s

/-- Python `str.split("\n")`: split on newline characters keeping empties. -/
def splitLinesNl (s : Str) : List Str := s.splitOn '\n'

/-- Join lines with newline characters (inverse of `splitLinesNl` for
newline-free lines). -/
def joinNl (ls : List Str) : Str := List.intercalate ['\n'] ls

/-- Python `str.upper()` (ASCII fragment). -/
def pyUpper (s : Str) : Str := s.map Char.toUpper

/-- Render an integer the way Python string formatting does. -/
def intToStr (i : ℤ) : Str := (toString i).toList

/-- Render a natural number the way Python string formatting does. -/
def natToStr (n : ℕ) : Str := (toString n).toList

/-- Python `range(a, b)` materialised as a list of integers. -/
def pyRange (a b : ℤ) : List ℤ :=
  (List.range (b - a).toNat).map (fun i => a + (i : ℤ))

/-- Python `str.replace(old, new)` (all non-overlapping occurrences,
left to right).  Fuel-based recursion. -/
def pyReplaceGo (old new : Str) : ℕ → Str → Str
  | 0, s => s
  | _ + 1, [] => []
  | f + 1, c :: rest =>
    if startsWithStr old (c :: rest) && old ≠ [] then
      new ++ pyReplaceGo old new f ((c :: rest).drop old.length)
    else
      c :: pyReplaceGo old new f rest

/-- Python `str.replace(old, new)` for a non-empty pattern. -/
def pyReplace (s old new : Str) : Str := pyReplaceGo old new s.length s

/-- Helper for `pyInt`: accumulate decimal digits allowing single
underscores between digits, as Python's `int()` does. -/
def pyIntDigitsGo : ℕ → Str → Option ℕ
  | acc, [] => some acc
  | _, ['_'] => none
  | acc, '_' :: c :: rest =>
    if c.isDigit then pyIntDigitsGo (acc * 10 + (c.toNat - 48)) rest else none
  | acc, c :: rest =>
    if c.isDigit then pyIntDigitsGo (acc * 10 + (c.toNat - 48)) rest else none

/-- Digit-sequence parse for `pyInt`: at least one digit, underscores only
between digits. -/
def pyIntDigits : Str → Option ℕ
  | [] => none
  | c :: rest =>
    if c.isDigit then pyIntDigitsGo (c.toNat - 48) rest else none

/-- Python `int(token)` on a whitespace-free token: optional sign followed
by digits (with Python's underscore grouping).  Returns `none` where
Python raises `ValueError`. -/
def pyInt : Str → Option ℤ
  | '+' :: rest => (pyIntDigits rest).map (fun n => (n : ℤ))
  | '-' :: rest => (pyIntDigits rest).map (fun n => -(n : ℤ))
  | s => (pyIntDigits s).map (fun n => (n : ℤ))

/-!
JSON value model.  This models the Python `json` standard library (an
external collaborator of the repository, not repository code) restricted
to the shapes the grading pipeline exchanges: objects, arrays, strings
without escape sequences, integer numerals, booleans and null.
-/

/-- JSON values as produced by `json.loads`. -/
inductive JValue where
  | null : JValue
  | bool (b : Bool) : JValue
  | num (n : ℤ) : JValue
  | str (s : Str) : JValue
  | arr (items : List JValue) : JValue
  | obj (fields : List (Str × JValue)) : JValue

/-- Insert a key/value pair into an object the way a Python dict does:
an existing key keeps its position and gets the new value, a new key is
appended at the end. -/
def dictInsert (k : Str) (v : JValue) : List (Str × JValue) → List (Str × JValue)
  | [] => [(k, v)]
  | (k', v') :: rest =>
    if k' = k then (k', v) :: rest else (k', v') :: dictInsert k v rest

/-- Look a key up in an object, modelling Python `key in d` / `d[key]`. -/
def dictGet (k : Str) : List (Str × JValue) → Option JValue
  | [] => none
  | (k', v') :: rest => if k' = k then some v' else dictGet k rest

mutual
/-- Serialise a JSON value the way `json.dumps` does with its default
separators (`", "` and `": "`).  Strings are assumed to need no escaping. -/
def jsonDumps : JValue → Str
  | .null => "null".toList
  | .bool true => "true".toList
  | .bool false => "false".toList
  | .num n => intToStr n
  | .str s => '"' :: (s ++ ['"'])
  | .arr items => '[' :: (jsonDumpsItems items ++ [']'])
  | .obj fields => '\x7b' :: (jsonDumpsMembers fields ++ ['\x7d'])

/-- Serialise array items joined by `", "`. -/
def jsonDumpsItems : List JValue → Str
  | [] => []
  | [v] => jsonDumps v
  | v :: rest => jsonDumps v ++ (", ".toList ++ jsonDumpsItems rest)

/-- Serialise object members joined by `", "`, each as `"key": value`. -/
def jsonDumpsMembers : List (Str × JValue) → Str
  | [] => []
  | [(k, v)] => ('"' :: (k ++ ['"'])) ++ (": ".toList ++ jsonDumps v)
  | (k, v) :: rest =>
    ('"' :: (k ++ ['"'])) ++ (": ".toList ++ jsonDumps v) ++
      (", ".toList ++ jsonDumpsMembers rest)
end

/-- JSON structural whitespace. -/
def jsonWs (c : Char) : Bool := c = ' ' || c = '\t' || c = '\n' || c = '\r'

/-- Skip JSON structural whitespace. -/
def skipJsonWs (s : Str) : Str := s.dropWhile jsonWs

/-- Parse the remainder of a JSON string (after the opening quote),
assuming no escape sequences. -/
def parseJsonStringRest : Str → Option (Str × Str)
  | [] => none
  | '"' :: rest => some ([], rest)
  | '\\' :: _ => none
  | c :: rest => (parseJsonStringRest rest).map (fun (s, r) => (c :: s, r))

mutual
/-- Recursive-descent JSON value parse with a fuel counter (the callers
supply at least the input length plus one, which suffices because every
recursive call happens strictly after a character is consumed). -/
def parseJsonValue : ℕ → Str → Option (JValue × Str)
  | 0, _ => none
  | f + 1, s =>
    match s with
    | '\x7b' :: rest =>
      match skipJsonWs rest with
      | '\x7d' :: rest' => some (.obj [], rest')
      | t => parseJsonMembers f t []
    | '[' :: rest =>
      match skipJsonWs rest with
      | ']' :: rest' => some (.arr [], rest')
      | t => parseJsonItems f t []
    | '"' :: rest => (parseJsonStringRest rest).map (fun (str, r) => (.str str, r))
    | 't' :: rest =>
      if startsWithStr "rue".toList rest then some (.bool true, rest.drop 3) else none
    | 'f' :: rest =>
      if startsWithStr "alse".toList rest then some (.bool false, rest.drop 4) else none
    | 'n' :: rest =>
      if startsWithStr "ull".toList rest then some (.null, rest.drop 3) else none
    | '-' :: rest =>
      match rest.takeWhile Char.isDigit with
      | [] => none
      | ds => (pyIntDigits ds).map (fun n => (.num (-(n : ℤ)), rest.drop ds.length))
    | c :: rest =>
      if c.isDigit then
        let ds := (c :: rest).takeWhile Char.isDigit
        (pyIntDigits ds).map (fun n => (.num (n : ℤ), (c :: rest).drop ds.length))
      else none
    | [] => none

/-- Parse the members of a JSON object after at least one member is known
to follow; `acc` holds members already parsed (dict semantics for
duplicate keys). -/
def parseJsonMembers : ℕ → Str → List (Str × JValue) → Option (JValue × Str)
  | 0, _, _ => none
  | f + 1, s, acc =>
    match s with
    | '"' :: rest =>
      match parseJsonStringRest rest with
      | none => none
      | some (key, afterKey) =>
        match skipJsonWs afterKey with
        | ':' :: afterColon =>
          match parseJsonValue f (skipJsonWs afterColon) with
          | none => none
          | some (v, afterVal) =>
            let acc' := dictInsert key v acc
            match skipJsonWs afterVal with
            | ',' :: afterComma => parseJsonMembers f (skipJsonWs afterComma) acc'
            | '\x7d' :: afterBrace => some (.obj acc', afterBrace)
            | _ => none
        | _ => none
    | _ => none

/-- Parse the items of a JSON array after at least one item is known to
follow; `acc` holds items already parsed in reverse order. -/
def parseJsonItems : ℕ → Str → List JValue → Option (JValue × Str)
  | 0, _, _ => none
  | f + 1, s, acc =>
    match parseJsonValue f s with
    | none => none
    | some (v, afterVal) =>
      match skipJsonWs afterVal with
      | ',' :: afterComma => parseJsonItems f (skipJsonWs afterComma) (v :: acc)
      | ']' :: afterBracket => some (.arr (v :: acc).reverse, afterBracket)
      | _ => none
end

/-- Model of `json.loads`: parse one JSON value, requiring that only
whitespace follows it.  Returns `none` where Python raises
`json.JSONDecodeError`. -/
def jsonLoads (s : Str) : Option JValue :=
  match parseJsonValue (s.length + 1) (skipJsonWs s) with
  | some (v, rest) => if skipJsonWs rest = [] then some v else none
  | none => none

/-!
Embedding of `prompts.py`: `_normalize_llm_output`, `_attempt_json_fixup`
and `parse_and_validate_response`.  The optional `save_raw_to` /
`description` arguments only produce side effects (writing the raw text
to disk, message context) and are omitted; the validator is modelled as
a boolean predicate (the Python callable raises on failure).
-/

/-- Embedding of the regex substitution
`re.sub(r"^```[a-zA-Z0-9]*\n", "", t)`: remove one leading code-fence
marker with an optional language tag. -/
def stripLeadingFence (t : Str) : Str :=
  if startsWithStr "```".toList t then
    match (t.drop 3).dropWhile asciiAlnum with
    | '\n' :: rest => rest
    | _ => t
  else t

/-- Embedding of the regex substitution `re.sub(r"\n```$", "", t)`:
remove one trailing code-fence marker. -/
def stripTrailingFence (t : Str) : Str :=
  if endsWithStr t "\n```".toList then t.take (t.length - 4) else t

/-- Embedding of `_normalize_llm_output`: strip whitespace, remove code
fences, strip backticks, strip whitespace again. -/
def normalizeLlmOutput (text : Str) : Str :=
  pyStrip (pyStripP (fun c => c = '\x60')
    (stripTrailingFence (stripLeadingFence (pyStrip text))))

/-- Embedding of the regex substitution `re.sub(r",\s*(\}|\])", r"\1", candidate)`:
remove every comma that is followed (modulo whitespace) by a closing
brace or bracket.  Fuel-based recursion. -/
def removeTrailingCommasGo : ℕ → Str → Str
  | 0, s => s
  | _ + 1, [] => []
  | f + 1, c :: rest =>
    if c = ',' then
      match rest.dropWhile pySpace with
      | b :: tail =>
        if b = '\x7d' || b = ']' then b :: removeTrailingCommasGo f tail
        else ',' :: removeTrailingCommasGo f rest
      | [] => ',' :: removeTrailingCommasGo f rest
    else c :: removeTrailingCommasGo f rest

/-- Remove trailing commas before closing braces/brackets. -/
def removeTrailingCommas (s : Str) : Str := removeTrailingCommasGo s.length s

/-- Index of the last occurrence of `c` in `s`, or `-1`,
modelling Python `str.rfind`. -/
def pyRFindChar (c : Char) (s : Str) : ℤ :=
  match s.reverse.findIdx? (· = c) with
  | none => -1
  | some i => (s.length : ℤ) - 1 - (i : ℤ)

/-- Embedding of `_attempt_json_fixup`: a fast direct parse, then the
brace-slicing heuristic (substring from the first `{` to the last `}`,
trailing commas removed) with a retry. -/
def attemptJsonFixup (text : Str) : Option JValue :=
  match jsonLoads text with
  | some v => some v
  | none =>
    match text.findIdx? (· = '\x7b') with
    | none => none
    | some firstOpen =>
      let lastClose : ℤ := pyRFindChar '\x7d' text
      let candidate := (text.take (lastClose + 1).toNat).drop firstOpen
      jsonLoads (removeTrailingCommas candidate)

/-- Keys the unwrap heuristic recognises: names starting with `p1_`,
`p2_` or `p3_`, or the exact name `generated_comment`. -/
def isGradingFieldKey (k : Str) : Bool :=
  startsWithStr "p1_".toList k || startsWithStr "p2_".toList k ||
    startsWithStr "p3_".toList k || k = "generated_comment".toList

/-- Embedding of the wrapped-`properties` unwrap block of
`parse_and_validate_response`: when the parsed object has exactly one
key `"properties"` whose value is itself an object containing at least
one grading-style key, replace the object by that inner object. -/
def unwrapProperties : JValue → JValue
  | .obj fields =>
    if (dictGet ("properties".toList) fields).isSome && fields.length = 1 then
      match dictGet ("properties".toList) fields with
      | some (.obj innerFields) =>
        if (innerFields.map Prod.fst).any isGradingFieldKey then .obj innerFields
        else .obj fields
      | _ => .obj fields
    else .obj fields
  | v => v

/-- Failure modes of the recovery parse, carrying the bounded diagnostic
snippet the Python `ValueError` messages embed. -/
inductive RecoveryError where
  | parseFailure (rawSnippet : Str)
  | validationFailure (parsedSnippet : Str)

/-- Embedding of `parse_and_validate_response`: normalize, direct parse,
heuristic fixup, `properties` unwrap, then optional validation. -/
def parseAndValidateResponse (responseText : Str)
    (validator : Option (JValue → Bool)) : Except RecoveryError JValue :=
  let txt := normalizeLlmOutput responseText
  let step : Except RecoveryError JValue :=
    match jsonLoads txt with
    | some parsed => .ok parsed
    | none =>
      match attemptJsonFixup txt with
      | some parsed => .ok parsed
      | none => .error (.parseFailure (txt.take 1000))
  match step with
  | .error e => .error e
  | .ok parsed0 =>
    let parsed := unwrapProperties parsed0
    match validator with
    | some check =>
      if check parsed then .ok parsed
      else .error (.validationFailure ((jsonDumps parsed).take 1000))
    | none => .ok parsed

/-!
Embedding of `grade_student_project` (`langchain_integration.py`): the
bounded retry loop around the remote call, JSON parse and model
validation.  One full remote-call-plus-parse attempt is abstracted into
an `AttemptOutcome` (the body only produces a value or raises); the loop
control flow — `for attempt in range(max_retries)` with
`continue`-on-failure and a raise on the last attempt — is embedded
directly.  The second component of the result counts how many attempts
were actually executed.
-/

/-- Outcome of one remote-call-plus-parse attempt: a validated grading
object, a `json.JSONDecodeError`, or any other exception. -/
inductive AttemptOutcome where
  | success (g : JValue)
  | jsonDecodeError (msg : Str)
  | otherError (msg : Str)

/-- Did the attempt produce a validated grading object? -/
def AttemptOutcome.isSuccess : AttemptOutcome → Bool
  | .success _ => true
  | _ => false

/-- Terminal errors of the retry loop, wrapping the attempt count, as the
`ValueError` messages in the source do. -/
inductive GradeError where
  | parseFailure (attempts : ℕ) (msg : Str)
  | processingFailure (attempts : ℕ) (msg : Str)
  | unexpected
deriving DecidableEq

/-- The `max_retries = 3` constant of `grade_student_project`. -/
def maxRetries : ℕ := 3

/-- The retry loop body: iterate over the remaining attempt indices; a
success returns immediately, a failure on the last attempt index raises
the wrapped error, any other failure continues with the next attempt. -/
def gradeAttemptsLoop (thunk : ℕ → AttemptOutcome) :
    List ℕ → Except GradeError JValue × ℕ
  | [] => (.error .unexpected, 0)
  | a :: rest =>
    match thunk a with
    | .success g => (.ok g, 1)
    | .jsonDecodeError m =>
      if a = maxRetries - 1 then (.error (.parseFailure maxRetries m), 1)
      else
        let r := gradeAttemptsLoop thunk rest
        (r.1, r.2 + 1)
    | .otherError m =>
      if a = maxRetries - 1 then (.error (.processingFailure maxRetries m), 1)
      else
        let r := gradeAttemptsLoop thunk rest
        (r.1, r.2 + 1)

/-- Embedding of `grade_student_project`: run the retry loop over the
attempt indices `range(max_retries)`. -/
def gradeStudentProject (thunk : ℕ → AttemptOutcome) :
    Except GradeError JValue × ℕ :=
  gradeAttemptsLoop thunk (List.range maxRetries)

/-!
Embedding of the test harnesses in `tools.py`.  Filesystem probes and
subprocess executions are abstracted into environment records whose
fields answer exactly the questions the code asks (`os.path.exists`,
the captured output / timeout of one `subprocess.run`); staging-directory
creation and file copying, logging and `save_test_results` are side
effects no claim depends on and are omitted.
-/

/-- Outcome of the build subprocess in `run_standard_tests`. -/
inductive BuildOutcome where
  | success
  | timeoutExpired
  | calledProcessError (stderrMsg : Str)
  | fileNotFoundErr (stderrMsg : Str)
deriving DecidableEq

/-- Outcome of running the built program on one fixture's input. -/
inductive RunOutcome where
  | finished (stdoutS : Str)
  | timeoutExpired
  | fileNotFoundErr
  | otherError (msg : Str)
deriving DecidableEq

/-- One entry of the `test_details` list. -/
structure TestDetail where
  testName : Str
  passed : Bool
  errorMsg : Option Str
  expectedOutput : Str
  actualOutput : Str
deriving DecidableEq

/-- The Python `failed_tests` list holds file names in the fixture
harness and integers in the single-phase judge harness. -/
inductive FailedEntry where
  | name (s : Str)
  | idx (i : ℤ)
deriving DecidableEq

/-- One entry of the multi-phase `phase_results` mapping. -/
structure PhaseData where
  passed : ℤ
  total : ℤ
  output : Str
deriving DecidableEq

/-- The results dictionary shared by all harnesses in `tools.py`.
`phaseResults` is populated only by the multi-phase judge harness. -/
structure TestResults where
  buildSuccessful : Bool
  passedTests : ℤ
  totalTests : ℤ
  failedTests : List FailedEntry
  executionSummary : Str
  buildOutput : Str
  testDetails : List TestDetail
  phaseResults : List (Str × PhaseData)
deriving DecidableEq

/-- The freshly initialised results dictionary. -/
def emptyTestResults : TestResults :=
  { buildSuccessful := false, passedTests := 0, totalTests := 0,
    failedTests := [], executionSummary := [], buildOutput := [],
    testDetails := [], phaseResults := [] }

/-- Environment of `run_standard_tests`: build outcome, filesystem
probes, the test-case directory listing, the expected-output file
contents and the per-fixture program runs. -/
structure FixtureEnv where
  buildOutcome : BuildOutcome
  executableExists : Bool
  testCasesDirExists : Bool
  dirListing : List Str
  expectedContent : Str → Option Str
  runFixture : Str → RunOutcome

/-- Embedding of one iteration of the fixture loop in
`run_standard_tests`: read and strip the expected output (a missing file
raises `FileNotFoundError`), run the program, strip its stdout and
compare for equality; every failure branch appends the fixture's file
name to `failed_tests`.  Returns the `test_details` entry and whether
the fixture passed. -/
def runOneFixture (env : FixtureEnv) (testFile : Str) : TestDetail × Bool :=
  let outFile := pyReplace testFile (".in".toList) (".out".toList)
  match env.expectedContent outFile with
  | none =>
    ({ testName := testFile, passed := false,
       errorMsg := some ("Expected output file missing".toList),
       expectedOutput := [], actualOutput := [] }, false)
  | some expectedRaw =>
    let expected := pyStrip expectedRaw
    match env.runFixture testFile with
    | .timeoutExpired =>
      ({ testName := testFile, passed := false,
         errorMsg := some ("Timeout (10s)".toList),
         expectedOutput := [], actualOutput := [] }, false)
    | .fileNotFoundErr =>
      ({ testName := testFile, passed := false,
         errorMsg := some ("Expected output file missing".toList),
         expectedOutput := [], actualOutput := [] }, false)
    | .otherError m =>
      ({ testName := testFile, passed := false, errorMsg := some m,
         expectedOutput := [], actualOutput := [] }, false)
    | .finished out =>
      let actual := pyStrip out
      if actual = expected then
        ({ testName := testFile, passed := true, errorMsg := none,
           expectedOutput := expected, actualOutput := actual }, true)
      else
        ({ testName := testFile, passed := false, errorMsg := none,
           expectedOutput := expected, actualOutput := actual }, false)

/-- The fixture loop of `run_standard_tests`: every fixture is processed
independently; returns the pass count, the failed list and the detail
list, in iteration order. -/
def runFixturesLoop (env : FixtureEnv) :
    List Str → ℤ × List FailedEntry × List TestDetail
  | [] => (0, [], [])
  | f :: rest =>
    let (d, ok) := runOneFixture env f
    let (p, fl, ds) := runFixturesLoop env rest
    if ok then (p + 1, fl, d :: ds)
    else (p, FailedEntry.name f :: fl, d :: ds)

/-- Embedding of `run_standard_tests`: build, check for the executable
and the test-case directory, list the `.in` fixtures, run them all and
aggregate.  The per-fixture progress lines and percentage statistics of
`execution_summary` are elided (no claim inspects the standard-harness
summary); the name interpolations of the error messages are likewise
elided. -/
def runStandardTests (env : FixtureEnv) : TestResults :=
  match env.buildOutcome with
  | .timeoutExpired =>
    { emptyTestResults with
        buildOutput := "❌ Build timed out after 2 minutes".toList,
        executionSummary := "❌ Build failed: Timeout after 2 minutes.\n".toList }
  | .calledProcessError e =>
    { emptyTestResults with
        buildOutput := "❌ Build failed: ".toList ++ e,
        executionSummary := "❌ Build failed: ".toList ++ e ++ ['\n'] }
  | .fileNotFoundErr e =>
    { emptyTestResults with
        buildOutput := "❌ Build failed: ".toList ++ e,
        executionSummary := "❌ Build failed: ".toList ++ e ++ ['\n'] }
  | .success =>
    let base :=
      { emptyTestResults with
          buildSuccessful := true,
          buildOutput := "✅ Build successful".toList,
          executionSummary := "✅ Build successful.\n".toList }
    if !env.executableExists then
      { base with executionSummary :=
          base.executionSummary ++ "❌ Executable not found after build.\n".toList }
    else if !env.testCasesDirExists then
      { base with executionSummary :=
          base.executionSummary ++ "❌ Test cases directory not found.\n".toList }
    else
      let testFiles := env.dirListing.filter (fun f => endsWithStr f (".in".toList))
      if testFiles.length = 0 then
        { base with
            totalTests := 0,
            executionSummary := base.executionSummary ++
              "⚠️  No test cases found in the directory.\n".toList }
      else
        let (p, fl, ds) := runFixturesLoop env testFiles
        { base with
            totalTests := (testFiles.length : ℤ),
            passedTests := p,
            failedTests := fl,
            testDetails := ds }

/-- Outcome of one external judge-control invocation
(`subprocess.run([judge_script, "-t"], ..., timeout=300)`). -/
inductive ExecOutcome where
  | finished (stdoutS stderrS : Str)
  | timeoutExpired
deriving DecidableEq

/-- Environment of the judge harnesses: the filesystem probes of
`run_judge_tests` and the judge-script invocations. -/
structure JudgeEnv where
  practiceName : Str
  testCasesDirExists : Bool
  judgePathExists : Bool
  judgeScriptExists : Bool
  phaseDirExists : ℕ → Bool
  phaseTest : ℕ → ExecOutcome
  singleTest : ExecOutcome

/-- Does a transcript line contain both result tokens?  Embedding of
`"Passed:" in line and "Failed:" in line`. -/
def lineMatches (l : Str) : Bool :=
  containsSub ("Passed:".toList) l && containsSub ("Failed:".toList) l

/-- Embedding of the per-line body of the multi-phase result extraction:
on a matching line with at least five whitespace tokens, `passed` is
assigned from token 1 and `total` from token 4; a `ValueError` on
token 4 leaves `total` unchanged after `passed` was already reassigned,
and only a fully successful parse breaks the scan.  Returns the new
`(passed, total)` state and the break flag. -/
def parsePhaseLine (st : ℤ × ℤ) (l : Str) : (ℤ × ℤ) × Bool :=
  if lineMatches l then
    let parts := pySplitWs l
    if 5 ≤ parts.length then
      match pyInt (parts.getD 1 []) with
      | none => (st, false)
      | some pv =>
        match pyInt (parts.getD 4 []) with
        | none => ((pv, st.2), false)
        | some tv => ((pv, tv), true)
    else (st, false)
  else (st, false)

/-- Scan transcript lines with `parsePhaseLine`, stopping at the first
fully parsed summary line. -/
def parsePhaseCountsLines : (ℤ × ℤ) → List Str → ℤ × ℤ
  | st, [] => st
  | st, l :: rest =>
    let (st', brk) := parsePhaseLine st l
    if brk then st' else parsePhaseCountsLines st' rest

/-- The multi-phase result extraction over one phase transcript:
start from `passed = total = 0` and scan the lines. -/
def parsePhaseCounts (output : Str) : ℤ × ℤ :=
  parsePhaseCountsLines (0, 0) (splitLinesNl output)

/-- Embedding of the per-line body of the single-phase result
extraction: a fully parsed matching line overwrites `passed_tests`,
`total_tests`, `failed_tests = range(passed+1, total+1)` and sets
`build_successful`; there is no break, so a later matching line wins. -/
def singlePhaseLineStep (st : ℤ × ℤ × List FailedEntry × Bool) (l : Str) :
    ℤ × ℤ × List FailedEntry × Bool :=
  if lineMatches l then
    let parts := pySplitWs l
    if 5 ≤ parts.length then
      match pyInt (parts.getD 1 []), pyInt (parts.getD 4 []) with
      | some p, some t => (p, t, (pyRange (p + 1) (t + 1)).map FailedEntry.idx, true)
      | _, _ => st
    else st
  else st

/-- Embedding of `run_judge_tests_single_phase` after staging: run
`judge.sh -t` under the 300 s timeout, build the combined summary, scan
the stdout lines, and on an unparsed result fall back to the
"Compiled Successfully" probe. -/
def runJudgeTestsSinglePhase (env : JudgeEnv) : TestResults :=
  match env.singleTest with
  | .timeoutExpired =>
    { emptyTestResults with
        executionSummary := "❌ Testing timed out after 5 minutes.".toList }
  | .finished out err =>
    let summary := out ++ (if err ≠ [] then "\nSTDERR:\n".toList ++ err else [])
    let (p, t, fl, bs) :=
      (splitLinesNl out).foldl singlePhaseLineStep (0, 0, [], false)
    let compiledProbe :=
      containsSub ("Compiled Successfully".toList) out ||
        containsSub ("Compiled successfully".toList) out
    if t = 0 && compiledProbe then
      { emptyTestResults with
          buildSuccessful := true,
          passedTests := p, totalTests := t, failedTests := fl,
          executionSummary := summary ++
            "\n⚠️ Could not parse test results, but compilation was successful.".toList }
    else
      { emptyTestResults with
          buildSuccessful := bs,
          passedTests := p, totalTests := t, failedTests := fl,
          executionSummary := summary }

/-- Phase discovery of `run_judge_tests_multi_phase`: probe the `P1`,
`P2`, `P3` subdirectories in order; when none exists fall back to the
fixed default of three phases. -/
def judgePhases (env : JudgeEnv) : List ℕ :=
  let phases := [1, 2, 3].filter env.phaseDirExists
  if phases = [] then [1, 2, 3] else phases

/-- The phase loop of `run_judge_tests_multi_phase`.  Each iteration
selects the phase and runs `judge.sh -t`; a `TimeoutExpired` escapes to
the handler of the whole function, so the loop is cut short.  The first
component carries the accumulated `(phase_results, total_passed,
total_tests)` (or `none` after a timeout); the second records which
phases' test action was actually invoked, in order. -/
def multiPhaseLoop (env : JudgeEnv) :
    List ℕ → Option (List (Str × PhaseData) × ℤ × ℤ) × List ℕ
  | [] => (some ([], 0, 0), [])
  | ph :: rest =>
    match env.phaseTest ph with
    | .timeoutExpired => (none, [ph])
    | .finished out err =>
      let phaseOutput := out ++ (if err ≠ [] then "\nSTDERR:\n".toList ++ err else [])
      let (p, t) := parsePhaseCounts phaseOutput
      let key := "phase".toList ++ natToStr ph
      match multiPhaseLoop env rest with
      | (none, trace) => (none, ph :: trace)
      | (some (prs, tp, tt), trace) =>
        (some ((key, ⟨p, t, phaseOutput⟩) :: prs, p + tp, t + tt), ph :: trace)

/-- The combined `execution_summary` built after the multi-phase loop. -/
def combinePhaseSummaries : List (Str × PhaseData) → Str
  | [] => []
  | (key, pd) :: rest =>
    "\n=== PHASE ".toList ++ pyUpper key ++ " ===\n".toList ++ pd.output ++
      "\nPhase ".toList ++ key ++ ": ".toList ++ intToStr pd.passed ++
      ['/'] ++ intToStr pd.total ++ " tests passed\n".toList ++
      combinePhaseSummaries rest

/-- Embedding of `run_judge_tests_multi_phase`: discover the phases, run
the loop, and either report the timeout (a `TimeoutExpired` on any phase
aborts the whole run, leaving the freshly initialised counters) or
aggregate all phase results and set `build_successful = True`.  The
second component is the list of phases whose test action ran. -/
def runJudgeTestsMultiPhase (env : JudgeEnv) : TestResults × List ℕ :=
  let (res, trace) := multiPhaseLoop env (judgePhases env)
  match res with
  | none =>
    ({ emptyTestResults with
        executionSummary := "❌ Testing timed out after 5 minutes.".toList }, trace)
  | some (prs, tp, tt) =>
    ({ emptyTestResults with
        buildSuccessful := true,
        passedTests := tp,
        totalTests := tt,
        phaseResults := prs,
        executionSummary := combinePhaseSummaries prs }, trace)

/-- Embedding of `run_judge_tests`: probe for the practice's test-case
directory and its `judge` folder, then for `judge.sh`, decide between
the multi-phase and single-phase flows (`practice_name == "A6"` or a
`P1` directory), and dispatch. -/
def runJudgeTests (env : JudgeEnv) : TestResults :=
  if !(env.testCasesDirExists && env.judgePathExists) then
    { emptyTestResults with
        executionSummary := "❌ Judge folder not found for ".toList ++ env.practiceName }
  else if !env.judgeScriptExists then
    { emptyTestResults with
        executionSummary := "❌ judge.sh not found in judge directory".toList }
  else if env.practiceName = "A6".toList || env.phaseDirExists 1 then
    (runJudgeTestsMultiPhase env).1
  else
    runJudgeTestsSinglePhase env

/-- Which harness's result `build_and_run_tests` returned. -/
inductive HarnessChoice where
  | judge
  | standard
deriving DecidableEq

/-- Embedding of `build_and_run_tests`: run the judge flow first and keep
its result unless it reports zero tests and its summary contains
"Judge folder not found", in which case fall back to the standard
fixture harness.  The second component records the choice. -/
def buildAndRunTests (jenv : JudgeEnv) (fenv : FixtureEnv) :
    TestResults × HarnessChoice :=
  let judgeResults := runJudgeTests jenv
  if 0 < judgeResults.totalTests ||
      !(containsSub ("Judge folder not found".toList) judgeResults.executionSummary) then
    (judgeResults, .judge)
  else
    (runStandardTests fenv, .standard)

/-!
Embedding of `calculate_scores` (`main_agent.py`).  LLM grades are an
association list with Python's `dict.get(key, 0)` lookup; rubric weights
are transcribed per assignment type.  Python's `round(x, 2)` is modelled
as exact round-half-to-even on rationals.  The `"A6"` branch delegates
to `calculate_a6_scores`, which returns a per-phase structure of its
own and is outside the claims' scope; the enumeration below covers the
remaining branches of the `if`/`elif` chain, with `generic` standing for
the final `else` fallback.
-/

/-- The penalty configuration looked up from
`config.PRACTICE_CONFIGS[...]["penalties"]`; a value of `0` models both
an absent key and an explicit zero (both are falsy in the guards). -/
structure ScorePenalties where
  usingGoto : ℚ
  lateDelivery : ℚ
  cleanCode : ℚ

/-- The test counters read from the aggregated test-results dictionary. -/
structure TestCounts where
  totalTests : ℤ
  passedTests : ℤ

/-- The assignment-type branches of `calculate_scores` (except `"A6"`). -/
inductive AssignmentType where
  | A1 | A2 | A3 | A4 | A5 | generic

/-- Python `llm_grades.get(key, 0)` over the association-list model. -/
def gget (grades : List (String × ℚ)) (k : String) : ℚ :=
  match grades.find? (fun kv => kv.1 = k) with
  | some kv => kv.2
  | none => 0

/-- The correctness component `(passed_tests / total_tests) * weight if
total_tests > 0 else 0`. -/
def correctnessScore (weight : ℚ) (tc : TestCounts) : ℚ :=
  if 0 < tc.totalTests then ((tc.passedTests : ℚ) / (tc.totalTests : ℚ)) * weight
  else 0

/-- Correctness weight of each assignment-type branch. -/
def correctnessWeight : AssignmentType → ℚ
  | .A1 => 30 | .A2 => 30 | .A3 => 49 | .A4 => 22 | .A5 => 22 | .generic => 30

/-- The A5 design feature names summed with coefficient 1. -/
def a5DesignFeatures : List String :=
  ["design_attack_wave", "design_normal_tower", "design_ice_tower",
   "design_bomb_tower", "design_tower_visibility", "design_normal_balloon",
   "design_pregnant_balloon", "design_panel", "design_launch_control",
   "design_health_panel", "design_music", "design_game_end"]

/-- The raw score of each branch of `calculate_scores`: the weighted sum
of the branch's rubric fields plus its correctness component. -/
def rawScore (g : List (String × ℚ)) (tc : TestCounts) : AssignmentType → ℚ
  | .A1 =>
    gget g "logic_iterators" * 1 + gget g "logic_containers" * 1 +
    gget g "design_io_separation" * 2 + gget g "design_structs" * 1 +
    gget g "design_no_god_main" * 2 + gget g "design_small_functions" * 3 +
    gget g "clean_no_comments" * 1 + gget g "clean_no_duplication" * 1 +
    gget g "clean_indentation" * 1 + gget g "clean_magic_values" * 1 +
    gget g "clean_naming" * 1 + gget g "clean_consistency" * 1 +
    correctnessScore 30 tc
  | .A2 =>
    gget g "data_reading_input" * 5 + gget g "data_storing_information" * 10 +
    gget g "design_separate_io" * 8 + gget g "design_no_godly_main" * 10 +
    gget g "design_small_functions" * 10 + gget g "clean_no_duplication" * 7 +
    gget g "clean_magic_values" * 7 + gget g "clean_naming" * 7 +
    gget g "clean_consistency" * 7 + gget g "git_commit_messages" * 4 +
    gget g "git_standard_commits" * 3 + correctnessScore 30 tc
  | .A3 =>
    ([1, 2, 3, 4].map (fun i =>
      gget g ("q" ++ toString i ++ "_recursive_logic") * 2 +
      gget g ("q" ++ toString i ++ "_test_cases") * 15 +
      gget g ("q" ++ toString i ++ "_upload_testcases") * 2)).sum +
    gget g "design_io_separation" * 1 + gget g "design_data_structures" * 3 +
    gget g "design_no_god_main" * 1 + gget g "design_small_functions" * 2 +
    gget g "design_no_duplication" * 1 + gget g "design_indentation" * 1 +
    gget g "design_magic_values" * 1 + gget g "design_naming" * 1 +
    gget g "design_consistency" * 1 + gget g "git_commit_messages" * 1 +
    gget g "git_standard_commits" * 1 + correctnessScore 49 tc
  | .A4 =>
    gget g "oop_break_classes" * 5 + gget g "oop_responsibility" * 5 +
    gget g "oop_field_assignment" * 5 + gget g "oop_access_modifiers" * 3 +
    gget g "oop_no_logic_main" * 3 + gget g "oop_small_functions" * 2 +
    gget g "clean_no_duplication" * 1 + gget g "clean_indentation" * 1 +
    gget g "clean_magic_values" * 1 + gget g "clean_naming" * 1 +
    gget g "clean_consistency" * 1 + gget g "multifile_break_files" * 1 +
    gget g "multifile_header_guards" * 1 + gget g "multifile_makefile" * 1 +
    gget g "git_commit_messages" * 1 + gget g "git_standard_commits" * 1 +
    correctnessScore 22 tc
  | .A5 =>
    (a5DesignFeatures.map (gget g)).sum +
    gget g "oop_break_classes" * 5 + gget g "oop_encapsulation" * 5 +
    gget g "oop_small_functions" * 2 + gget g "oop_no_duplication" * 1 +
    gget g "oop_indentation" * 1 + gget g "clean_magic_values" * 1 +
    gget g "clean_naming" * 1 + gget g "clean_consistency" * 1 +
    gget g "git_break_files" * 1 + gget g "git_header_guards" * 1 +
    gget g "git_makefile" * 1 + gget g "git_commit_messages" * 1 +
    gget g "git_standard_commits" * 1 + correctnessScore 22 tc
  | .generic =>
    (g.map (fun kv => kv.2)).sum + correctnessScore 30 tc

/-- Round half to even, as Python's built-in `round` does. -/
def roundHalfEven (q : ℚ) : ℤ :=
  if q - (⌊q⌋ : ℚ) < 1 / 2 then ⌊q⌋
  else if 1 / 2 < q - (⌊q⌋ : ℚ) then ⌊q⌋ + 1
  else if ⌊q⌋ % 2 = 0 then ⌊q⌋ else ⌊q⌋ + 1

/-- Python `round(x, 2)` modelled exactly on rationals. -/
def pyRound2 (q : ℚ) : ℚ := (roundHalfEven (q * 100) : ℚ) / 100

/-- The computed entries `calculate_scores` adds to the copied grades
dictionary before returning it. -/
structure FinalGrades where
  correctnessTestCases : ℚ
  rawScore2 : ℚ
  finalScore : ℚ

/-- Embedding of `calculate_scores`: compute the branch's raw score,
subtract the goto / late-delivery / clean-code penalties under their
truthiness guards, then clamp with `max(0, final_score)` and round to
two decimals. -/
def calculateScores (grades : List (String × ℚ)) (tc : TestCounts)
    (penalties : ScorePenalties) (atype : AssignmentType) : FinalGrades :=
  let raw := rawScore grades tc atype
  let fs1 :=
    if penalties.usingGoto ≠ 0 ∧ gget grades "using_goto" ≠ 0 then
      raw - penalties.usingGoto
    else raw
  let fs2 :=
    if penalties.lateDelivery ≠ 0 then
      fs1 - penalties.lateDelivery * gget grades "late_delivery"
    else fs1
  let fs3 :=
    if penalties.cleanCode ≠ 0 then fs2 - penalties.cleanCode else fs2
  { correctnessTestCases := pyRound2 (correctnessScore (correctnessWeight atype) tc),
    rawScore2 := pyRound2 raw,
    finalScore := pyRound2 (max 0 fs3) }

/-!
Specification-side definition and concrete environments used by the
claim theorems below.
-/

/-- Trailing-whitespace-only trimming, following the specification's
words ("exact string equality after trimming trailing whitespace only");
stated for comparison with the `str.strip()` the code actually uses. -/
def trimTrailingWs (s : Str) : Str := (s.reverse.dropWhile pySpace).reverse

/-- A fixture environment whose single fixture prints `"15"` while the
expected-output file contains `" 15"` (same text up to leading
whitespace). -/
def leadingWsFixtureEnv : FixtureEnv :=
  { buildOutcome := .success
    executableExists := true
    testCasesDirExists := true
    dirListing := ["t1.in".toList]
    expectedContent := fun n => if n = "t1.out".toList then some (" 15".toList) else none
    runFixture := fun _ => .finished ("15".toList) }

/-- A judge environment with one discovered phase whose transcript holds
no parseable summary line. -/
def noParseJudgeEnv : JudgeEnv :=
  { practiceName := "A6".toList
    testCasesDirExists := true
    judgePathExists := true
    judgeScriptExists := true
    phaseDirExists := fun i => i = 1
    phaseTest := fun _ => .finished ("no results here".toList) []
    singleTest := .finished [] [] }

/-- A judge environment in which the judge folder exists but `judge.sh`
does not. -/
def scriptMissingJudgeEnv : JudgeEnv :=
  { practiceName := "A1".toList
    testCasesDirExists := true
    judgePathExists := true
    judgeScriptExists := false
    phaseDirExists := fun _ => false
    phaseTest := fun _ => .finished [] []
    singleTest := .finished [] [] }

/-- A judge environment whose second phase times out while the first
phase completes. -/
def timeoutJudgeEnv : JudgeEnv :=
  { practiceName := "A6".toList
    testCasesDirExists := true
    judgePathExists := true
    judgeScriptExists := true
    phaseDirExists := fun _ => true
    phaseTest := fun i =>
      if i = 2 then .timeoutExpired
      else .finished ("Passed: 1 out of 1 Failed: 0".toList) []
    singleTest := .finished [] [] }

/-- A trivial fixture environment (failed build, nothing else). -/
def trivialFixtureEnv : FixtureEnv :=
  { buildOutcome := .timeoutExpired
    executableExists := false
    testCasesDirExists := false
    dirListing := []
    expectedContent := fun _ => none
    runFixture := fun _ => .otherError [] }

/-!
Helper lemmas shared by the claim theorems.
-/

/-- The fixture loop classifies every fixture exactly once: the pass
count plus the failed-list length equals the fixture count, and one
detail entry is recorded per fixture. -/
theorem runFixturesLoop_counts (env : FixtureEnv) :
    ∀ files p fl ds, runFixturesLoop env files = (p, fl, ds) →
      p + (fl.length : ℤ) = (files.length : ℤ) ∧ ds.length = files.length := by
  intro files
  induction files with
  | nil =>
    intro p fl ds h
    simp only [runFixturesLoop, Prod.mk.injEq] at h
    obtain ⟨h1, h2, h3⟩ := h
    subst h1; subst h2; subst h3
    simp
  | cons f rest ih =>
    intro p fl ds h
    simp only [runFixturesLoop] at h
    rcases hone : runOneFixture env f with ⟨d, ok⟩
    rcases hrest : runFixturesLoop env rest with ⟨p', fl', ds'⟩
    rw [hone, hrest] at h
    obtain ⟨ih1, ih2⟩ := ih p' fl' ds' hrest
    cases ok <;> simp only [Bool.false_eq_true, if_false, if_true, Prod.mk.injEq] at h <;>
      obtain ⟨h1, h2, h3⟩ := h <;> subst h1 <;> subst h2 <;> subst h3 <;>
      constructor <;> simp <;> omega

/-- C2: for every FixtureHarness run, `passed_tests + |failed_tests| ==
total_tests`, and every fixture is classified exactly once (one
`test_details` entry per fixture; no fixture's failure aborts the rest). -/
theorem c2_fixture_report_invariant (env : FixtureEnv) :
    (runStandardTests env).passedTests + ((runStandardTests env).failedTests.length : ℤ)
        = (runStandardTests env).totalTests ∧
      ((runStandardTests env).testDetails.length : ℤ) = (runStandardTests env).totalTests := by
  unfold runStandardTests
  cases env.buildOutcome with
  | timeoutExpired => simp [emptyTestResults]
  | calledProcessError e => simp [emptyTestResults]
  | fileNotFoundErr e => simp [emptyTestResults]
  | success =>
    dsimp only
    split_ifs with h1 h2 h3
    · simp [emptyTestResults]
    · simp [emptyTestResults]
    · simp [emptyTestResults]
    · obtain ⟨c1, c2⟩ := runFixturesLoop_counts env
        (List.filter (fun f => endsWithStr f (".in".toList)) env.dirListing) _ _ _ rfl
      refine ⟨c1, ?_⟩
      dsimp only
      exact_mod_cast c2

/-- Rounding half to even sends a non-negative rational to a
non-negative integer. -/
theorem roundHalfEven_nonneg (q : ℚ) (h : 0 ≤ q) : 0 ≤ roundHalfEven q := by
  unfold roundHalfEven
  have hf : (0 : ℤ) ≤ ⌊q⌋ := Int.floor_nonneg.mpr h
  split_ifs <;> omega

/-- Two-decimal rounding preserves non-negativity. -/
theorem pyRound2_nonneg (q : ℚ) (h : 0 ≤ q) : 0 ≤ pyRound2 q := by
  unfold pyRound2
  have h1 : (0 : ℤ) ≤ roundHalfEven (q * 100) :=
    roundHalfEven_nonneg _ (mul_nonneg h (by norm_num))
  have h2 : (0 : ℚ) ≤ (roundHalfEven (q * 100) : ℚ) := by exact_mod_cast h1
  exact div_nonneg h2 (by norm_num)

/-- C10: for assignment types A1–A5 and arbitrary grades, test results
and penalties, the reported `final_score` is non-negative, because the
code clamps with `max(0, final_score)` before rounding. -/
theorem c10_final_score_nonneg (grades : List (String × ℚ)) (tc : TestCounts)
    (penalties : ScorePenalties) (atype : AssignmentType)
    (h : atype = .A1 ∨ atype = .A2 ∨ atype = .A3 ∨ atype = .A4 ∨ atype = .A5) :
    0 ≤ (calculateScores grades tc penalties atype).finalScore := by
  dsimp only [calculateScores]
  exact pyRound2_nonneg _ (le_max_left 0 _)

/-- Witness for C10 at a concrete input: assignment A1, empty grades,
no tests, all three penalties configured. -/
theorem c10_final_score_nonneg_witness :
    0 ≤ (calculateScores [] ⟨0, 0⟩ ⟨5, 5, 5⟩ .A1).finalScore :=
  c10_final_score_nonneg [] ⟨0, 0⟩ ⟨5, 5, 5⟩ .A1 (Or.inl rfl)

/-- A non-successful attempt is one of the two failure variants. -/
theorem attemptOutcome_failure_shape (o : AttemptOutcome)
    (h : o.isSuccess = false) :
    (∃ m, o = .jsonDecodeError m) ∨ (∃ m, o = .otherError m) := by
  cases o <;> simp_all [AttemptOutcome.isSuccess]

/-- C4: with `max_retries = 3`, a grading cycle that fails on the first
two attempts and succeeds on the third returns the validated result
(after exactly three attempts), and a cycle that fails on every attempt
raises a wrapped terminal error after exactly three attempts, no more
and no fewer. -/
theorem c4_retry_bounded (thunk : ℕ → AttemptOutcome) (g : JValue) :
    ((∀ i, i < maxRetries - 1 → (thunk i).isSuccess = false) →
      thunk (maxRetries - 1) = .success g →
      gradeStudentProject thunk = (.ok g, maxRetries)) ∧
    ((∀ i, i < maxRetries → (thunk i).isSuccess = false) →
      (gradeStudentProject thunk).2 = maxRetries ∧
      ∃ e, (gradeStudentProject thunk).1 = .error e ∧
        ∃ m, e = .parseFailure maxRetries m ∨ e = .processingFailure maxRetries m) := by
  have hr : List.range maxRetries = [0, 1, 2] := rfl
  constructor
  · intro hfail hsucc
    have h0 := hfail 0 (by decide)
    have h1 := hfail 1 (by decide)
    have hsucc2 : thunk 2 = .success g := hsucc
    obtain ⟨m0, e0⟩ | ⟨m0, e0⟩ := attemptOutcome_failure_shape _ h0 <;>
      obtain ⟨m1, e1⟩ | ⟨m1, e1⟩ := attemptOutcome_failure_shape _ h1 <;>
      simp [gradeStudentProject, hr, gradeAttemptsLoop, e0, e1, hsucc2, maxRetries]
  · intro hfail
    have h0 := hfail 0 (by decide)
    have h1 := hfail 1 (by decide)
    have h2 := hfail 2 (by decide)
    obtain ⟨m0, e0⟩ | ⟨m0, e0⟩ := attemptOutcome_failure_shape _ h0 <;>
      obtain ⟨m1, e1⟩ | ⟨m1, e1⟩ := attemptOutcome_failure_shape _ h1
    all_goals obtain ⟨m2, e2⟩ | ⟨m2, e2⟩ := attemptOutcome_failure_shape _ h2
    all_goals simp [gradeStudentProject, hr, gradeAttemptsLoop, e0, e1, e2, maxRetries]

/-- Witness for C4: the success branch on a thunk failing twice then
succeeding, and the failure branch on an always-failing thunk. -/
theorem c4_retry_bounded_witness :
    gradeStudentProject (fun i => if i < 2 then .otherError [] else .success (JValue.num 1))
        = (.ok (JValue.num 1), maxRetries) ∧
      (gradeStudentProject (fun _ => .jsonDecodeError [])).2 = maxRetries := by
  constructor
  · exact (c4_retry_bounded _ (JValue.num 1)).1 (by decide) rfl
  · exact ((c4_retry_bounded _ (JValue.num 1)).2 (by decide)).1

/-- C5 counterexample: the claim's trailing-whitespace-only comparison is
refuted at a concrete input.  The fixture environment's program prints
`"15"` while the expected-output file contains `" 15"`: the harness
classifies the fixture PASSED (because `str.strip()` removes the leading
whitespace on both sides), yet under trailing-only trimming the two
outputs differ, so leading whitespace is not preserved by the code's
comparison. -/
theorem c5_leading_ws_counterexample :
    (runStandardTests leadingWsFixtureEnv).passedTests = 1 ∧
      (runStandardTests leadingWsFixtureEnv).totalTests = 1 ∧
      trimTrailingWs (" 15".toList) ≠ trimTrailingWs ("15".toList) := by
  refine ⟨rfl, rfl, ?_⟩
  decide

/-- C5 amended: a fixture whose expected-output file was read and whose
program run completed is classified PASSED if and only if the actual
standard output equals the expected content after Python `str.strip()`
on both — whitespace is trimmed from BOTH ends (leading whitespace is
not preserved), with no other normalization. -/
theorem c5_fixture_comparison (env : FixtureEnv) (testFile expectedRaw out : Str)
    (hexp : env.expectedContent (pyReplace testFile (".in".toList) (".out".toList))
      = some expectedRaw)
    (hrun : env.runFixture testFile = .finished out) :
    (runOneFixture env testFile).2 = true ↔ pyStrip out = pyStrip expectedRaw := by
  unfold runOneFixture
  dsimp only
  rw [hexp, hrun]
  by_cases h : pyStrip out = pyStrip expectedRaw
  · simp [h]
  · simp [h]

/-- Witness for C5 (amended): the same-content fixture of
`leadingWsFixtureEnv` is classified PASSED. -/
theorem c5_fixture_comparison_witness :
    (runOneFixture leadingWsFixtureEnv ("t1.in".toList)).2 = true :=
  (c5_fixture_comparison leadingWsFixtureEnv ("t1.in".toList) (" 15".toList)
    ("15".toList) rfl rfl).mpr (by decide)

/-- C6 counterexample: a completed multi-phase run in which the only
phase's transcript is unparseable (its recorded total is zero) still
reports `build_successful = true`, refuting the claimed
"if and only if at least one phase has non-zero total". -/
theorem c6_counterexample :
    (runJudgeTestsMultiPhase noParseJudgeEnv).1.buildSuccessful = true ∧
      (runJudgeTestsMultiPhase noParseJudgeEnv).1.phaseResults
        = [("phase1".toList, ⟨0, 0, "no results here".toList⟩)] ∧
      (runJudgeTestsMultiPhase noParseJudgeEnv).1.totalTests = 0 := by
  refine ⟨rfl, ?_, rfl⟩
  decide

/-- Every non-timing-out phase list completes the multi-phase loop with
an aggregate. -/
theorem multiPhaseLoop_completes (env : JudgeEnv) :
    ∀ l, (∀ p ∈ l, env.phaseTest p ≠ .timeoutExpired) →
      (multiPhaseLoop env l).1 ≠ none := by
  intro l
  induction l with
  | nil => intro _; simp [multiPhaseLoop]
  | cons ph rest ih =>
    intro h
    have hph := h ph (by simp)
    cases e : env.phaseTest ph with
    | timeoutExpired => exact absurd e hph
    | finished out err =>
      have hne := ih (fun p hp => h p (by simp [hp]))
      rcases hrest : multiPhaseLoop env rest with ⟨res, trace⟩
      rw [hrest] at hne
      simp only at hne
      cases res with
      | none => exact absurd rfl hne
      | some x =>
        rcases x with ⟨prs, tp, tt⟩
        simp [multiPhaseLoop, e, hrest]

/-- C6 amended: whenever a multi-phase judge run completes all phases
(no phase's test action times out), `build_successful` is set to true
unconditionally — even when no phase produced a parseable non-zero
total. -/
theorem c6_build_successful_unconditional (env : JudgeEnv)
    (h : ∀ p ∈ judgePhases env, env.phaseTest p ≠ .timeoutExpired) :
    (runJudgeTestsMultiPhase env).1.buildSuccessful = true := by
  have hne := multiPhaseLoop_completes env (judgePhases env) h
  rcases hloop : multiPhaseLoop env (judgePhases env) with ⟨res, trace⟩
  rw [hloop] at hne
  simp only at hne
  cases res with
  | none => exact absurd rfl hne
  | some x =>
    rcases x with ⟨prs, tp, tt⟩
    simp [runJudgeTestsMultiPhase, hloop]

/-- Witness for C6 (amended) at the concrete unparseable-phase
environment. -/
theorem c6_build_successful_unconditional_witness :
    (runJudgeTestsMultiPhase noParseJudgeEnv).1.buildSuccessful = true :=
  c6_build_successful_unconditional noParseJudgeEnv (by decide)

/-- A timeout at phase `p`, after phases `l1` that do not time out, cuts
the multi-phase loop short: the accumulated result is discarded and the
trace of executed phases stops at `p`. -/
theorem multiPhaseLoop_timeout (env : JudgeEnv) (p : ℕ) (l2 : List ℕ)
    (hp : env.phaseTest p = .timeoutExpired) :
    ∀ l1, (∀ q ∈ l1, env.phaseTest q ≠ .timeoutExpired) →
      multiPhaseLoop env (l1 ++ p :: l2) = (none, l1 ++ [p]) := by
  intro l1
  induction l1 with
  | nil => intro _; simp [multiPhaseLoop, hp]
  | cons q l1' ih =>
    intro h
    have hq := h q (by simp)
    cases e : env.phaseTest q with
    | timeoutExpired => exact absurd e hq
    | finished out err =>
      have ih2 := ih (fun r hr => h r (by simp [hr]))
      simp [multiPhaseLoop, e, ih2]

/-- C8: in a multi-phase judge run, if some phase's test action times
out while every earlier phase completed, the whole run is aborted: the
trace of executed phases stops at the timed-out phase (no later phase is
selected or executed) and the run returns the timed-out result with the
freshly initialised counters, rather than marking only that phase failed
and continuing. -/
theorem c8_phase_timeout_aborts (env : JudgeEnv) (l1 : List ℕ) (p : ℕ) (l2 : List ℕ)
    (hphases : judgePhases env = l1 ++ p :: l2)
    (hok : ∀ q ∈ l1, env.phaseTest q ≠ .timeoutExpired)
    (hp : env.phaseTest p = .timeoutExpired) :
    (runJudgeTestsMultiPhase env).2 = l1 ++ [p] ∧
      (runJudgeTestsMultiPhase env).1
        = { emptyTestResults with
            executionSummary := "❌ Testing timed out after 5 minutes.".toList } := by
  have hloop := multiPhaseLoop_timeout env p l2 hp l1 hok
  unfold runJudgeTestsMultiPhase
  rw [hphases, hloop]
  exact ⟨rfl, rfl⟩

/-- Witness for C8: in `timeoutJudgeEnv` phase 2 times out after phase 1
completed, so only phases 1 and 2 execute. -/
theorem c8_phase_timeout_aborts_witness :
    (runJudgeTestsMultiPhase timeoutJudgeEnv).2 = [1, 2] ∧
      (runJudgeTestsMultiPhase timeoutJudgeEnv).1.totalTests = 0 := by
  have h := c8_phase_timeout_aborts timeoutJudgeEnv [1] 2 [3] (by decide)
    (by decide) (by decide)
  refine ⟨h.1, ?_⟩
  rw [h.2]
  rfl

/-- A pattern is found at the start of any extension of itself. -/
theorem startsWithStr_append_self (n t : Str) : startsWithStr n (n ++ t) = true := by
  induction n with
  | nil => rfl
  | cons c cs ih => simp [startsWithStr, ih]

/-- A string starting with the needle contains it. -/
theorem containsSub_of_startsWith {n h : Str} (hs : startsWithStr n h = true) :
    containsSub n h = true := by
  cases h with
  | nil => exact hs
  | cons c t => simp [containsSub, hs]

/-- Containment is preserved under prepending. -/
theorem containsSub_append_right (n pre rest : Str) (h : containsSub n rest = true) :
    containsSub n (pre ++ rest) = true := by
  induction pre with
  | nil => simpa using h
  | cons c cs ih => simp [containsSub, ih]

/-- C7 counterexample: when the judge directory exists but `judge.sh`
is absent, `build_and_run_tests` keeps the (empty) judge result instead
of running the FixtureHarness — the fallback condition looks for the
"Judge folder not found" summary text, which this case does not carry. -/
theorem c7_counterexample :
    (buildAndRunTests scriptMissingJudgeEnv trivialFixtureEnv).2 = HarnessChoice.judge ∧
      HarnessChoice.judge ≠ HarnessChoice.standard :=
  ⟨rfl, by decide⟩

/-- C7 amended: the selector falls back to the FixtureHarness when the
judge folder itself is absent, but when the judge folder exists and
`judge.sh` is absent it keeps the empty JudgeHarness result (the
FixtureHarness is not run). -/
theorem c7_harness_selection (jenv : JudgeEnv) (fenv : FixtureEnv) :
    (¬(jenv.testCasesDirExists = true ∧ jenv.judgePathExists = true) →
      (buildAndRunTests jenv fenv).2 = .standard ∧
      (buildAndRunTests jenv fenv).1 = runStandardTests fenv) ∧
    (jenv.testCasesDirExists = true ∧ jenv.judgePathExists = true ∧
        jenv.judgeScriptExists = false →
      (buildAndRunTests jenv fenv).2 = .judge ∧
      (buildAndRunTests jenv fenv).1 = runJudgeTests jenv) := by
  constructor
  · intro hmiss
    have hb : (jenv.testCasesDirExists && jenv.judgePathExists) = false := by
      cases h1 : jenv.testCasesDirExists <;> cases h2 : jenv.judgePathExists <;> simp_all
    have hjr : runJudgeTests jenv
        = { emptyTestResults with
            executionSummary :=
              "❌ Judge folder not found for ".toList ++ jenv.practiceName } := by
      unfold runJudgeTests
      rw [hb]
      rfl
    have hcontains : containsSub ("Judge folder not found".toList)
        ("❌ Judge folder not found for ".toList ++ jenv.practiceName) = true := by
      have hd : ("❌ Judge folder not found for ".toList : Str)
          = "❌ ".toList ++ ("Judge folder not found".toList ++ " for ".toList) := by
        decide
      rw [hd, List.append_assoc]
      apply containsSub_append_right
      rw [List.append_assoc]
      exact containsSub_of_startsWith (startsWithStr_append_self _ _)
    unfold buildAndRunTests
    rw [hjr]
    simp only [emptyTestResults]
    dsimp only
    rw [hcontains]
    simp
  · intro hcase
    obtain ⟨h1, h2, h3⟩ := hcase
    have hjr : runJudgeTests jenv
        = { emptyTestResults with
            executionSummary := "❌ judge.sh not found in judge directory".toList } := by
      unfold runJudgeTests
      simp [h1, h2, h3]
    have hnc : containsSub ("Judge folder not found".toList)
        ("❌ judge.sh not found in judge directory".toList) = false := by decide
    unfold buildAndRunTests
    rw [hjr]
    simp only [emptyTestResults]
    dsimp only
    rw [hnc]
    simp

/-- Witness for C7 (amended): the judge-folder-absent case falls back to
the standard harness, the script-absent case keeps the judge result. -/
theorem c7_harness_selection_witness :
    (buildAndRunTests { scriptMissingJudgeEnv with judgePathExists := false }
        trivialFixtureEnv).2 = HarnessChoice.standard ∧
      (buildAndRunTests scriptMissingJudgeEnv trivialFixtureEnv).2
        = HarnessChoice.judge :=
  ⟨((c7_harness_selection _ trivialFixtureEnv).1 (by decide)).1,
    ((c7_harness_selection scriptMissingJudgeEnv trivialFixtureEnv).2 (by decide)).1⟩

/-- Scanning lines that do not contain both result tokens leaves the
extraction state unchanged. -/
theorem parsePhaseCountsLines_skip (pre : List Str)
    (hpre : ∀ l ∈ pre, lineMatches l = false) (st : ℤ × ℤ) (rest : List Str) :
    parsePhaseCountsLines st (pre ++ rest) = parsePhaseCountsLines st rest := by
  induction pre with
  | nil => rfl
  | cons l pre' ih =>
    have hl := hpre l (by simp)
    have ih2 := ih (fun x hx => hpre x (by simp [hx]))
    simp [parsePhaseCountsLines, parsePhaseLine, hl, ih2]

/-- C1 counterexample: a transcript consisting of exactly the line
`"Passed: 3 out of 5"`.  The line lacks the token `"Failed:"`, so the
result extraction leaves `passed = total = 0` — it does not yield
`(3, 5)` as the claim states. -/
theorem c1_counterexample :
    splitLinesNl ("Passed: 3 out of 5".toList) = ["Passed: 3 out of 5".toList] ∧
      parsePhaseCounts ("Passed: 3 out of 5".toList) = (0, 0) ∧
      ((0 : ℤ), (0 : ℤ)) ≠ ((3 : ℤ), (5 : ℤ)) :=
  ⟨by decide, by decide, by decide⟩

/-- C1 amended: the summary line must contain both `"Passed:"` and
`"Failed:"`.  For every transcript whose earlier lines do not contain
both tokens and which then carries the line
`"Passed: 3 out of 5 Failed: 2"`, the judge-phase extraction yields
`passed = 3` and `total = 5`. -/
theorem c1_passed_failed_extraction (pre post : List Str)
    (hpre : ∀ l ∈ pre, lineMatches l = false)
    (hnl : ∀ l ∈ pre ++ post, '\n' ∉ l) :
    parsePhaseCounts
        (joinNl (pre ++ ("Passed: 3 out of 5 Failed: 2".toList) :: post))
      = (3, 5) := by
  unfold parsePhaseCounts
  have hsplit :
      splitLinesNl (joinNl (pre ++ ("Passed: 3 out of 5 Failed: 2".toList) :: post))
        = pre ++ ("Passed: 3 out of 5 Failed: 2".toList) :: post := by
    unfold splitLinesNl joinNl
    apply List.splitOn_intercalate
    · intro l hl
      rcases List.mem_append.mp hl with hmem | hmem
      · exact hnl l (List.mem_append_left _ hmem)
      · rcases List.mem_cons.mp hmem with hmem | hmem
        · subst hmem; decide
        · exact hnl l (List.mem_append_right _ hmem)
    · simp
  rw [hsplit, parsePhaseCountsLines_skip pre hpre]
  rfl

/-- Witness for C1 (amended): a three-line transcript with one leading
non-matching line and one trailing line. -/
theorem c1_passed_failed_extraction_witness :
    parsePhaseCounts (joinNl (["build ok".toList] ++
        ("Passed: 3 out of 5 Failed: 2".toList) :: ["bye".toList])) = (3, 5) :=
  c1_passed_failed_extraction ["build ok".toList] ["bye".toList]
    (by decide) (by decide)

/-- C3 counterexample: with the caller's expected field set `{"score"}`,
the input `{"properties": {"score": 5}}` is parsed to the WRAPPER, not
to the inner object, although the inner object's keys match the
caller-supplied expected field names exactly — the unwrap heuristic only
looks for the hardcoded key shapes `p1_*`/`p2_*`/`p3_*`/
`generated_comment` and never consults the expected field names. -/
theorem c3_counterexample :
    parseAndValidateResponse ("\x7b\"properties\": \x7b\"score\": 5\x7d\x7d".toList) none
        = .ok (JValue.obj [("properties".toList,
            JValue.obj [("score".toList, JValue.num 5)])]) ∧
      JValue.obj [("properties".toList, JValue.obj [("score".toList, JValue.num 5)])]
        ≠ JValue.obj [("score".toList, JValue.num 5)] := by
  refine ⟨rfl, fun h => ?_⟩
  have h2 := congrArg (fun v => match v with
    | JValue.obj ((k, _) :: _) => k
    | _ => ([] : Str)) h
  simp at h2

/-- C3 amended: the wrapper removal is driven by the hardcoded
heuristic alone: whenever the inner object carries at least one key
starting with `p1_`, `p2_` or `p3_` or named `generated_comment`, the
single-key `properties` wrapper is replaced by the inner object
(independently of any caller-supplied expected field set). -/
theorem c3_unwrap_grading_keys (innerFields : List (Str × JValue))
    (h : (innerFields.map Prod.fst).any isGradingFieldKey = true) :
    unwrapProperties (JValue.obj [("properties".toList, JValue.obj innerFields)])
      = JValue.obj innerFields := by
  simp [unwrapProperties, dictGet, h]

/-- Witness for C3 (amended): an inner object with the key `p1_score`
is unwrapped. -/
theorem c3_unwrap_grading_keys_witness :
    unwrapProperties (JValue.obj [("properties".toList,
        JValue.obj [("p1_score".toList, JValue.num 5)])])
      = JValue.obj [("p1_score".toList, JValue.num 5)] :=
  c3_unwrap_grading_keys [("p1_score".toList, JValue.num 5)] (by decide)

/-- `dropWhile` is the identity when the head does not satisfy the
predicate. -/
theorem dropWhile_eq_self_of_head (p : Char → Bool) (s : Str)
    (h : ∀ c, s.head? = some c → p c = false) : s.dropWhile p = s := by
  cases s with
  | nil => rfl
  | cons a l =>
    have ha := h a rfl
    simp [List.dropWhile_cons, ha]

/-- Two-sided stripping is the identity when neither end satisfies the
predicate. -/
theorem pyStripP_eq_self (p : Char → Bool) (s : Str)
    (h1 : ∀ c, s.head? = some c → p c = false)
    (h2 : ∀ c, s.getLast? = some c → p c = false) : pyStripP p s = s := by
  unfold pyStripP
  rw [dropWhile_eq_self_of_head p s h1]
  rw [dropWhile_eq_self_of_head p s.reverse
    (fun c hc => h2 c (by rwa [List.head?_reverse] at hc))]
  exact List.reverse_reverse s

/-- The serialisation of a JSON object starts with an opening brace. -/
theorem jsonDumps_obj_head (fields : List (Str × JValue)) :
    (jsonDumps (JValue.obj fields)).head? = some '\x7b' := rfl

/-- The serialisation of a JSON object ends with a closing brace. -/
theorem jsonDumps_obj_getLast (fields : List (Str × JValue)) :
    (jsonDumps (JValue.obj fields)).getLast? = some '\x7d' := by
  show ('\x7b' :: (jsonDumpsMembers fields ++ ['\x7d'])).getLast? = some '\x7d'
  rw [show ('\x7b' :: (jsonDumpsMembers fields ++ ['\x7d']))
      = ('\x7b' :: jsonDumpsMembers fields) ++ ['\x7d'] by simp]
  exact List.getLast?_concat _

/-- Normalisation is the identity on a string that starts with `{` and
ends with `}` (no surrounding whitespace, backticks or code fences). -/
theorem normalizeLlmOutput_id (s : Str)
    (hhead : s.head? = some '\x7b') (hlast : s.getLast? = some '\x7d') :
    normalizeLlmOutput s = s := by
  have hnosp1 : ∀ c, s.head? = some c → pySpace c = false := by
    intro c hc; rw [hhead] at hc; injection hc with h; subst h; decide
  have hnosp2 : ∀ c, s.getLast? = some c → pySpace c = false := by
    intro c hc; rw [hlast] at hc; injection hc with h; subst h; decide
  have hbq1 : ∀ c, s.head? = some c → decide (c = '\x60') = false := by
    intro c hc; rw [hhead] at hc; injection hc with h; subst h; decide
  have hbq2 : ∀ c, s.getLast? = some c → decide (c = '\x60') = false := by
    intro c hc; rw [hlast] at hc; injection hc with h; subst h; decide
  have hlf : stripLeadingFence s = s := by
    cases s with
    | nil => rfl
    | cons a t =>
      have ha : a = '\x7b' := by simpa using hhead
      subst ha
      simp [stripLeadingFence, startsWithStr]
  have htf : stripTrailingFence s = s := by
    unfold stripTrailingFence endsWithStr
    have hrev : s.reverse.head? = some '\x7d' := by
      rw [List.head?_reverse]; exact hlast
    rcases hr : s.reverse with _ | ⟨a, r⟩
    · rw [hr] at hrev; cases hrev
    · rw [hr] at hrev
      have ha : a = '\x7d' := by simpa using hrev
      subst ha
      simp [startsWithStr]
  unfold normalizeLlmOutput pyStrip
  rw [pyStripP_eq_self pySpace s hnosp1 hnosp2, hlf, htf,
    pyStripP_eq_self _ s hbq1 hbq2, pyStripP_eq_self pySpace s hnosp1 hnosp2]

/-- The unwrap step is the identity on every object that is not a
single-key `properties` wrapper around an object. -/
theorem unwrapProperties_id_of_not_wrapper (fields : List (Str × JValue))
    (h : ∀ g, fields ≠ [(("properties".toList : Str), JValue.obj g)]) :
    unwrapProperties (JValue.obj fields) = JValue.obj fields := by
  unfold unwrapProperties
  dsimp only
  by_cases hc : ((dictGet ("properties".toList) fields).isSome
      && fields.length = 1) = true
  · rw [if_pos hc]
    rcases Bool.and_eq_true_iff.mp hc with ⟨hsome, hlen⟩
    rcases fields with _ | ⟨⟨k, v⟩, rest⟩
    · simp [dictGet] at hsome
    · have hrest : rest = [] := by simpa using hlen
      subst hrest
      have hk : k = "properties".toList := by
        by_contra hk
        simp [dictGet, hk] at hsome
        exact hk (hsome.trans (by decide))
      subst hk
      cases v with
      | obj g => exact absurd rfl (h g)
      | null => simp [dictGet]
      | bool b => simp [dictGet]
      | num n => simp [dictGet]
      | str s => simp [dictGet]
      | arr items => simp [dictGet]
  · rw [if_neg hc]

/-- C9: for every well-formed JSON object whose serialisation the JSON
library parses back to itself, that is not a single-key `properties`
wrapper, and that the validator accepts, the recovery parser returns the
object unchanged: the direct parse of the normalised text succeeds (so
the brace-slicing repair is never attempted) and the unwrap heuristic
leaves the object untouched. -/
theorem c9_roundtrip_no_heuristics (fields : List (Str × JValue))
    (validator : JValue → Bool)
    (hload : jsonLoads (jsonDumps (JValue.obj fields)) = some (JValue.obj fields))
    (hwrap : ∀ g, fields ≠ [(("properties".toList : Str), JValue.obj g)])
    (hval : validator (JValue.obj fields) = true) :
    parseAndValidateResponse (jsonDumps (JValue.obj fields)) (some validator)
        = .ok (JValue.obj fields) ∧
      jsonLoads (normalizeLlmOutput (jsonDumps (JValue.obj fields)))
        = some (JValue.obj fields) ∧
      unwrapProperties (JValue.obj fields) = JValue.obj fields := by
  have hnorm : normalizeLlmOutput (jsonDumps (JValue.obj fields))
      = jsonDumps (JValue.obj fields) :=
    normalizeLlmOutput_id _ (jsonDumps_obj_head fields) (jsonDumps_obj_getLast fields)
  have hunwrap := unwrapProperties_id_of_not_wrapper fields hwrap
  refine ⟨?_, by rw [hnorm, hload], hunwrap⟩
  unfold parseAndValidateResponse
  dsimp only
  rw [hnorm, hload]
  simp [hunwrap, hval]

/-- Witness for C9 at a concrete schema-shaped object and validator. -/
theorem c9_roundtrip_no_heuristics_witness :
    parseAndValidateResponse
        (jsonDumps (JValue.obj [("p1_design".toList, JValue.num 3)]))
        (some (fun v => match v with
          | JValue.obj fs => fs.map Prod.fst = [("p1_design".toList)]
          | _ => false))
      = .ok (JValue.obj [("p1_design".toList, JValue.num 3)]) :=
  (c9_roundtrip_no_heuristics [("p1_design".toList, JValue.num 3)] _
    rfl (by intro g hg; simp at hg) (by decide)).1
